import Mathlib

set_option maxRecDepth 40000

/-!
Verification of the Django workspace scaffolding extension
(`src/extension.ts` and the unnamed companion source file).

File contents are modelled as `List Char`.  `jsIncludes s p` models the
JavaScript expression `s.includes(p)`; `replaceFirst s pat repl` models
`s.replace(pat, repl)` with a string pattern, which replaces only the first
occurrence and returns the string unchanged when the pattern is absent;
`countOccs p s` counts the starting positions at which `p` occurs in `s`.
-/

/-- Number of starting positions of `s` at which `p` occurs. -/
def countOccs (p : List Char) : List Char → Nat
  | [] => 0
  | c :: t => (if p.isPrefixOf (c :: t) then 1 else 0) + countOccs p t

/-- JavaScript `String.prototype.includes`: substring containment. -/
def jsIncludes (s p : List Char) : Bool :=
  match s with
  | [] => p.isEmpty
  | c :: t => p.isPrefixOf (c :: t) || jsIncludes t p

/-- JavaScript `String.prototype.replace` with a string pattern: replace the
first occurrence of `pat` by `repl`; when `pat` does not occur the string is
returned unchanged. -/
def replaceFirst (s pat repl : List Char) : List Char :=
  match s with
  | [] => if pat.isEmpty then repl else []
  | c :: t =>
    if pat.isPrefixOf (c :: t) then repl ++ (c :: t).drop pat.length
    else c :: replaceFirst t pat repl

/-- No nonempty proper suffix of `p` is a prefix of `b`: appending `b` on the
right of any string creates no occurrence of `p` that crosses the border. -/
def noCross (p b : List Char) : Bool :=
  (List.range p.length).all fun k => k == 0 || ! (p.drop k).isPrefixOf b

/-- No nonempty proper prefix of `p` is a suffix of `a`: appending anything on
the right of `a` creates no occurrence of `p` that crosses the border. -/
def noCrossR (p a : List Char) : Bool :=
  (List.range p.length).all fun k => k == 0 || ! (p.take k).isSuffixOf a

theorem isPrefixOf_true_iff {l₁ l₂ : List Char} :
    l₁.isPrefixOf l₂ = true ↔ l₁ <+: l₂ :=
  List.isPrefixOf_iff_prefix

theorem isSuffixOf_true_iff {l₁ l₂ : List Char} :
    l₁.isSuffixOf l₂ = true ↔ l₁ <:+ l₂ :=
  List.isSuffixOf_iff_suffix

theorem jsIncludes_iff_infix {s p : List Char} :
    jsIncludes s p = true ↔ p <:+: s := by
  induction s with
  | nil => simp [jsIncludes, List.isEmpty_iff, List.infix_nil]
  | cons c t ih =>
    simp only [jsIncludes, Bool.or_eq_true, isPrefixOf_true_iff, ih]
    exact (List.infix_cons_iff).symm

theorem countOccs_pos_iff {p s : List Char} (hp : p ≠ []) :
    0 < countOccs p s ↔ jsIncludes s p = true := by
  induction s with
  | nil => simp [countOccs, jsIncludes, List.isEmpty_iff, hp]
  | cons c t ih =>
    by_cases h : p.isPrefixOf (c :: t) = true <;>
      simp [countOccs, jsIncludes, h, ih]

theorem countOccs_eq_zero_of_not_includes {p s : List Char} (hp : p ≠ [])
    (h : jsIncludes s p = false) : countOccs p s = 0 := by
  by_contra hne
  have hpos := (countOccs_pos_iff hp).mp (Nat.pos_of_ne_zero hne)
  rw [h] at hpos
  exact Bool.false_ne_true hpos

theorem countOccs_le_append_right (p a b : List Char) :
    countOccs p a ≤ countOccs p (a ++ b) := by
  induction a with
  | nil => exact Nat.zero_le _
  | cons c t ih =>
    have h1 : (if p.isPrefixOf (c :: t) then 1 else 0)
        ≤ (if p.isPrefixOf (c :: (t ++ b)) then 1 else 0) := by
      by_cases h : p.isPrefixOf (c :: t) = true
      · have h2 : p <+: (c :: t) ++ b :=
          ( isPrefixOf_true_iff.mp h).trans (List.prefix_append _ _)
        rw [List.cons_append] at h2
        rw [if_pos h, if_pos ( isPrefixOf_true_iff.mpr h2)]
      · rw [if_neg h]
        exact Nat.zero_le _
    simp only [List.cons_append, countOccs]
    exact Nat.add_le_add h1 ih

theorem countOccs_le_append_left (p a b : List Char) :
    countOccs p b ≤ countOccs p (a ++ b) := by
  induction a with
  | nil => exact Nat.le_refl _
  | cons c t ih =>
    simp only [List.cons_append, countOccs]
    exact Nat.le_trans ih (Nat.le_add_left _ _)

theorem prefix_append_iff_of_le {p a : List Char} (b : List Char)
    (h : p.length ≤ a.length) : p <+: a ++ b ↔ p <+: a := by
  constructor
  · intro hpf
    rw [List.prefix_iff_eq_take] at hpf ⊢
    rwa [List.take_append_eq_append_take, Nat.sub_eq_zero_of_le h,
      List.take_zero, List.append_nil] at hpf
  · intro hpf
    exact hpf.trans (List.prefix_append a b)

theorem prefix_cross {p a b : List Char} (h : p <+: a ++ b)
    (hl : a.length < p.length) : a <+: p ∧ (p.drop a.length) <+: b := by
  rw [List.prefix_iff_eq_take, List.take_append_eq_append_take,
    List.take_of_length_le (Nat.le_of_lt hl)] at h
  refine ⟨⟨_, h.symm⟩, ?_⟩
  have hdrop : p.drop a.length = List.take (p.length - a.length) b := by
    conv_lhs => rw [h]
    exact List.drop_left a _
  rw [hdrop]
  exact List.take_prefix _ _

theorem noCross_spec {p b : List Char} (h : noCross p b = true) {k : Nat}
    (hk0 : 0 < k) (hkp : k < p.length) : ¬ (p.drop k) <+: b := by
  intro hpre
  have hall := List.all_eq_true.mp h k (List.mem_range.mpr hkp)
  simp only [Bool.or_eq_true, beq_iff_eq, Bool.not_eq_true'] at hall
  rcases hall with h0 | hf
  · omega
  · have hb := isPrefixOf_true_iff.mpr hpre
    rw [hf] at hb
    exact Bool.false_ne_true hb

theorem noCrossR_spec {p a : List Char} (h : noCrossR p a = true) {k : Nat}
    (hk0 : 0 < k) (hkp : k < p.length) : ¬ (p.take k) <:+ a := by
  intro hsuf
  have hall := List.all_eq_true.mp h k (List.mem_range.mpr hkp)
  simp only [Bool.or_eq_true, beq_iff_eq, Bool.not_eq_true'] at hall
  rcases hall with h0 | hf
  · omega
  · have hb := isSuffixOf_true_iff.mpr hsuf
    rw [hf] at hb
    exact Bool.false_ne_true hb

theorem noCrossR_cons {p : List Char} {c : Char} {t : List Char}
    (h : noCrossR p (c :: t) = true) : noCrossR p t = true := by
  simp only [noCrossR, List.all_eq_true] at h ⊢
  intro k hk
  have hct := h k hk
  simp only [Bool.or_eq_true, beq_iff_eq, Bool.not_eq_true'] at hct ⊢
  rcases hct with h0 | hf
  · exact Or.inl h0
  · right
    rw [Bool.eq_false_iff] at hf ⊢
    intro hx
    exact hf ( isSuffixOf_true_iff.mpr
      (( isSuffixOf_true_iff.mp hx).trans (List.suffix_cons c t)))

theorem noCross_append {p b : List Char} (c : List Char) (h : noCross p b = true)
    (hl : p.length ≤ b.length + 1) : noCross p (b ++ c) = true := by
  simp only [noCross, List.all_eq_true] at h ⊢
  intro k hk
  by_cases hk0 : k = 0
  · simp [hk0]
  · have hb := h k hk
    simp only [Bool.or_eq_true, beq_iff_eq, Bool.not_eq_true'] at hb ⊢
    rcases hb with h0 | hf
    · exact absurd h0 hk0
    · right
      rw [Bool.eq_false_iff] at hf ⊢
      intro hx
      have hkr := List.mem_range.mp hk
      have hkl : (p.drop k).length ≤ b.length := by
        rw [List.length_drop]
        omega
      exact hf ( isPrefixOf_true_iff.mpr
        ((prefix_append_iff_of_le c hkl).mp ( isPrefixOf_true_iff.mp hx)))

theorem countOccs_append_noCross (p b : List Char) (hb : noCross p b = true)
    (a : List Char) : countOccs p (a ++ b) = countOccs p a + countOccs p b := by
  induction a with
  | nil => simp [countOccs]
  | cons c t ih =>
    have hiff : p <+: c :: (t ++ b) ↔ p <+: c :: t := by
      have h2 : p <+: (c :: t) ++ b ↔ p <+: c :: t := by
        rcases le_or_lt p.length (c :: t).length with hle | hlt
        · exact prefix_append_iff_of_le b hle
        · constructor
          · intro hpf
            rcases prefix_cross hpf hlt with ⟨_, hdrop⟩
            refine absurd hdrop (noCross_spec hb ?_ ?_)
            · simp
            · simpa using hlt
          · intro hpf
            exact absurd hpf.length_le (Nat.not_le.mpr hlt)
      rwa [List.cons_append] at h2
    have key : p.isPrefixOf (c :: (t ++ b)) = p.isPrefixOf (c :: t) := by
      by_cases hp : p <+: c :: t
      · rw [ isPrefixOf_true_iff.mpr hp, isPrefixOf_true_iff.mpr (hiff.mpr hp)]
      · have e1 : p.isPrefixOf (c :: (t ++ b)) = false := by
          rw [Bool.eq_false_iff]
          intro hx
          exact hp (hiff.mp ( isPrefixOf_true_iff.mp hx))
        have e2 : p.isPrefixOf (c :: t) = false := by
          rw [Bool.eq_false_iff]
          intro hx
          exact hp ( isPrefixOf_true_iff.mp hx)
        rw [e1, e2]
    rw [List.cons_append]
    simp only [countOccs, key, ih]
    exact (Nat.add_assoc _ _ _).symm

theorem countOccs_append_noCrossR (p : List Char) :
    ∀ a b : List Char, noCrossR p a = true →
      countOccs p (a ++ b) = countOccs p a + countOccs p b := by
  intro a
  induction a with
  | nil => intro b _; simp [countOccs]
  | cons c t ih =>
    intro b ha
    have hiff : p <+: c :: (t ++ b) ↔ p <+: c :: t := by
      have h2 : p <+: (c :: t) ++ b ↔ p <+: c :: t := by
        rcases le_or_lt p.length (c :: t).length with hle | hlt
        · exact prefix_append_iff_of_le b hle
        · constructor
          · intro hpf
            rcases prefix_cross hpf hlt with ⟨hcp, _⟩
            have htake : p.take (c :: t).length = c :: t :=
              (List.prefix_iff_eq_take.mp hcp).symm
            refine absurd ?_ (noCrossR_spec ha (k := (c :: t).length) ?_ hlt)
            · rw [htake]
            · simp
          · intro hpf
            exact absurd hpf.length_le (Nat.not_le.mpr hlt)
      rwa [List.cons_append] at h2
    have key : p.isPrefixOf (c :: (t ++ b)) = p.isPrefixOf (c :: t) := by
      by_cases hp : p <+: c :: t
      · rw [ isPrefixOf_true_iff.mpr hp, isPrefixOf_true_iff.mpr (hiff.mpr hp)]
      · have e1 : p.isPrefixOf (c :: (t ++ b)) = false := by
          rw [Bool.eq_false_iff]
          intro hx
          exact hp (hiff.mp ( isPrefixOf_true_iff.mp hx))
        have e2 : p.isPrefixOf (c :: t) = false := by
          rw [Bool.eq_false_iff]
          intro hx
          exact hp ( isPrefixOf_true_iff.mp hx)
        rw [e1, e2]
    rw [List.cons_append]
    simp only [countOccs, key, ih b (noCrossR_cons ha)]
    exact (Nat.add_assoc _ _ _).symm

theorem replaceFirst_of_not_includes {s pat : List Char} (repl : List Char)
    (h : jsIncludes s pat = false) : replaceFirst s pat repl = s := by
  induction s with
  | nil =>
    simp only [jsIncludes] at h
    simp [replaceFirst, h]
  | cons c t ih =>
    simp only [jsIncludes, Bool.or_eq_false_iff] at h
    simp [replaceFirst, h.1, ih h.2]

theorem replaceFirst_decomp {s pat : List Char} (repl : List Char)
    (h : jsIncludes s pat = true) (hp : pat ≠ []) :
    ∃ pre post, s = pre ++ (pat ++ post) ∧
      replaceFirst s pat repl = pre ++ (repl ++ post) := by
  induction s with
  | nil =>
    simp only [jsIncludes, List.isEmpty_iff] at h
    exact absurd h hp
  | cons c t ih =>
    by_cases hpre : pat.isPrefixOf (c :: t) = true
    · refine ⟨[], (c :: t).drop pat.length, ?_, ?_⟩
      · have hap := List.prefix_iff_eq_append.mp ( isPrefixOf_true_iff.mp hpre)
        simpa using hap.symm
      · simp [replaceFirst, hpre]
    · have ht : jsIncludes t pat = true := by
        simp only [jsIncludes, Bool.or_eq_true] at h
        rcases h with h1 | h2
        · exact absurd h1 hpre
        · exact h2
      rcases ih ht with ⟨pre, post, h1, h2⟩
      refine ⟨c :: pre, post, ?_, ?_⟩
      · simp [h1]
      · simp [replaceFirst, hpre, h2]

/-! ## Embedding of `src/extension.ts` -/

namespace ExtensionTs

/-- The marker substring `'STATICFILES_DIRS'` tested by
`setupStaticConfiguration` before patching `settings.py`. -/
def staticMarker : List Char := "STATICFILES_DIRS".toList

/-- The configuration block appended to `settings.py`: the template literal of
lines 21-28 of `setupStaticConfiguration` (a leading blank line, the comment
line, the three assignments, and the closing indentation). -/
def staticBlock : List Char :=
  "\n\n// Static files (CSS, JavaScript, Images)\nimport os\nSTATIC_URL = '/static/'\nSTATICFILES_DIRS = [os.path.join(BASE_DIR, 'static')]\nSTATIC_ROOT = os.path.join(BASE_DIR, 'staticfiles')\n            ".toList

/-- The user-visible notifications the extension can show. -/
inductive Msg
  | pythonNotInstalled
  | projectFolderExists
  | projectCreated
  | projectCreateFailed
  | appCreated
  | appCreateFailed
  | settingsNotFound
  | staticConfigAdded
  | staticConfigAlreadyExists
  | staticSetupSkipped
  | indexSetUp
  | indexSetupSkipped
  | openFolderFirst
  | noProjectNameEntered
  deriving DecidableEq

/-- Whether a notification is shown through `showErrorMessage` (as opposed to
`showInformationMessage`). -/
def Msg.isError : Msg → Bool
  | .pythonNotInstalled => true
  | .projectFolderExists => true
  | .projectCreateFailed => true
  | .appCreateFailed => true
  | .settingsNotFound => true
  | .openFolderFirst => true
  | .noProjectNameEntered => true
  | _ => false

/-- Result of the static-configuration patcher on the content of
`settings.py`: the resulting file content, whether `fs.writeFileSync` was
performed, and the notification shown. -/
structure StaticResult where
  content : List Char
  wrote : Bool
  msg : Msg
  deriving DecidableEq

/-- `setupStaticConfiguration` (lines 7-37) modelled on the content of
`settings.py`; `settingsFileExists` models `fs.existsSync(settingsFilePath)`. -/
def setupStaticConfiguration (settingsFileExists : Bool)
    (settingsContent : List Char) : StaticResult :=
  if settingsFileExists = false then
    ⟨settingsContent, false, .settingsNotFound⟩
  else if jsIncludes settingsContent staticMarker = false then
    ⟨settingsContent ++ staticBlock, true, .staticConfigAdded⟩
  else
    ⟨settingsContent, false, .staticConfigAlreadyExists⟩

/-- The include marker `include('${appName}.urls')` checked in the project
`urls.py` by `setupIndexHtml` (line 89). -/
def includeMarker (appName : List Char) : List Char :=
  "include('".toList ++ appName ++ ".urls')".toList

/-- The anchor string `'urlpatterns = ['` used by the splice (line 91). -/
def urlpatternsAnchor : List Char := "urlpatterns = [".toList

/-- The replacement text spliced in place of the anchor (line 92). -/
def spliceReplacement (appName : List Char) : List Char :=
  "from django.urls import include\n\nurlpatterns = [\n    path('".toList
    ++ appName ++ "/', include('".toList ++ appName ++ ".urls')),".toList

/-- Result of the routing splice on the content of the project `urls.py`. -/
structure SpliceResult where
  content : List Char
  wrote : Bool
  deriving DecidableEq

/-- Lines 87-95 of `setupIndexHtml`: when the include marker is absent,
replace the first occurrence of the anchor and write the file back; when it
is present, leave the file alone. -/
def spliceProjectUrls (appName content : List Char) : SpliceResult :=
  if jsIncludes content (includeMarker appName) = true then
    ⟨content, false⟩
  else
    ⟨replaceFirst content urlpatternsAnchor (spliceReplacement appName), true⟩

/-- Filesystem and external-process effects of the pipeline. -/
inductive Ev
  | procPythonVersionProbe
  | procDjangoStartProject
  | procManageStartApp
  | fsMkdirTemplatesDir
  | fsWriteIndexHtml
  | fsWriteViewsPy
  | fsWriteAppUrlsPy
  | fsWriteSettingsPy (content : List Char)
  | fsWriteProjectUrlsPy (content : List Char)
  deriving DecidableEq

/-- Whether an event is an external process invocation
(`child_process.execSync`). -/
def Ev.isProc : Ev → Bool
  | .procPythonVersionProbe => true
  | .procDjangoStartProject => true
  | .procManageStartApp => true
  | _ => false

/-- Events and user-visible notifications produced by a run. -/
structure Trace where
  events : List Ev
  msgs : List Msg
  deriving DecidableEq

/-- Sequential composition of two runs. -/
def Trace.seq (a b : Trace) : Trace :=
  ⟨a.events ++ b.events, a.msgs ++ b.msgs⟩

/-- Result of `setupIndexHtml` (lines 40-101): its trace plus the resulting
content of the project `urls.py`. -/
structure IndexResult where
  trace : Trace
  projectUrlsContent : List Char
  deriving DecidableEq

/-- `setupIndexHtml`: create the templates directory and write `index.html`,
`views.py` and the app `urls.py` unconditionally, splice the project
`urls.py`, then report success. -/
def setupIndexHtml (appName projectUrlsContent : List Char) : IndexResult :=
  let r := spliceProjectUrls appName projectUrlsContent
  { trace :=
      ⟨[.fsMkdirTemplatesDir, .fsWriteIndexHtml, .fsWriteViewsPy,
          .fsWriteAppUrlsPy]
        ++ (if r.wrote then [.fsWriteProjectUrlsPy r.content] else []),
        [.indexSetUp]⟩,
    projectUrlsContent := r.content }

/-- The environment a pipeline run observes: outcomes of the external
processes, filesystem facts, and the user's quick-pick answers (`none`
models a dismissed prompt). -/
structure Env where
  pythonOk : Bool
  projectPathExists : Bool
  startProjectOk : Bool
  startAppOk : Bool
  staticChoiceYes : Option Bool
  indexChoiceYes : Option Bool
  settingsFileExists : Bool
  settingsContent : List Char
  projectUrlsContent : List Char
  deriving DecidableEq

/-- Step 4 of `setupDjangoWorkspace` (lines 141-153): the static-files quick
pick and, on Yes, the patcher. -/
def staticStep (env : Env) : Trace :=
  match env.staticChoiceYes with
  | some true =>
    let r := setupStaticConfiguration env.settingsFileExists env.settingsContent
    ⟨if r.wrote then [.fsWriteSettingsPy r.content] else [], [r.msg]⟩
  | some false => ⟨[], [.staticSetupSkipped]⟩
  | none => ⟨[], []⟩

/-- Step 5 of `setupDjangoWorkspace` (lines 156-168): the index/views/urls
quick pick and, on Yes, `setupIndexHtml`. -/
def indexStep (env : Env) (appName : List Char) : Trace :=
  match env.indexChoiceYes with
  | some true => (setupIndexHtml appName env.projectUrlsContent).trace
  | some false => ⟨[], [.indexSetupSkipped]⟩
  | none => ⟨[], []⟩

/-- `setupDjangoWorkspace` (lines 104-169): probe the interpreter, check for
a colliding project folder, create the project, optionally create the app,
then run the two optional setup steps. -/
def setupDjangoWorkspace (env : Env) (appName : List Char) : Trace :=
  if env.pythonOk = false then
    ⟨[.procPythonVersionProbe], [.pythonNotInstalled]⟩
  else if env.projectPathExists = true then
    ⟨[.procPythonVersionProbe], [.projectFolderExists]⟩
  else if env.startProjectOk = false then
    ⟨[.procPythonVersionProbe, .procDjangoStartProject], [.projectCreateFailed]⟩
  else if appName.isEmpty = true then
    Trace.seq ⟨[.procPythonVersionProbe, .procDjangoStartProject],
        [.projectCreated]⟩
      (Trace.seq (staticStep env) (indexStep env appName))
  else if env.startAppOk = false then
    ⟨[.procPythonVersionProbe, .procDjangoStartProject, .procManageStartApp],
      [.projectCreated, .appCreateFailed]⟩
  else
    Trace.seq ⟨[.procPythonVersionProbe, .procDjangoStartProject,
          .procManageStartApp],
        [.projectCreated, .appCreated]⟩
      (Trace.seq (staticStep env) (indexStep env appName))

/-- The `setupDjangoWorkspace` command handler registered in `activate`
(lines 176-206).  `projectNameInput` and `appNameInput` are the
`showInputBox` results; `none` models a dismissed prompt.  A dismissed app
prompt falls back to the empty string (`|| ''`). -/
def activateHandler (env : Env) (workspaceFolderOpen : Bool)
    (projectNameInput appNameInput : Option (List Char)) : Trace :=
  if workspaceFolderOpen = false then ⟨[], [.openFolderFirst]⟩
  else
    match projectNameInput with
    | none => ⟨[], [.noProjectNameEntered]⟩
    | some pn =>
      if pn.isEmpty = true then ⟨[], [.noProjectNameEntered]⟩
      else setupDjangoWorkspace env (appNameInput.getD [])

end ExtensionTs

/-! ## Embedding of the unnamed companion source (first document):
`setupDjangoWorkspace` with virtual environment, `requirements.txt` and
`.vscode/settings.json` creation. -/

namespace Part000

/-- Filesystem and external-process effects of this pipeline variant. -/
inductive Ev
  | procPythonVersionProbe
  | procDjangoStartProject
  | procManageStartApp
  | procCreateVenv
  | procPipInstall
  | fsWriteRequirementsTxt (content : List Char)
  | fsMkdirVscodeFolder
  | fsWriteVscodeSettings (content : List Char)
  deriving DecidableEq

/-- The user-visible notifications of this pipeline variant. -/
inductive Msg
  | pythonNotInstalled
  | projectFolderExists
  | projectCreated
  | projectCreateFailed
  | appCreated
  | appCreateFailed
  | venvSetupFailed
  | requirementsWriteFailed
  | vscodeSettingsWriteFailed
  | workspaceSetUp
  deriving DecidableEq

/-- Events and user-visible notifications produced by a run. -/
structure Trace where
  events : List Ev
  msgs : List Msg
  deriving DecidableEq

/-- The environment a run observes: outcomes of the external processes and
of the filesystem writes. -/
structure Env where
  pythonOk : Bool
  projectPathExists : Bool
  startProjectOk : Bool
  startAppOk : Bool
  venvOk : Bool
  pipInstallOk : Bool
  writeRequirementsOk : Bool
  writeVscodeSettingsOk : Bool
  deriving DecidableEq

/-- The fixed dependency list (lines 58-61). -/
def requirements : List (List Char) :=
  [ "Django==3.2.6".toList, "djangorestframework==3.12.4".toList]

/-- `requirements.join('\n')`: the content written to `requirements.txt`. -/
def requirementsContent : List Char := List.intercalate [ '\n'] requirements

/-- `JSON.stringify(settings, null, 2)` for the fixed settings object of
lines 73-78. -/
def vscodeSettingsJson : List Char :=
  "\x7b\n  \"python.pythonPath\": \"venv/bin/python\",\n  \"python.linting.enabled\": true,\n  \"python.linting.pylintEnabled\": true,\n  \"python.formatting.autopep8Path\": \"autopep8\"\n\x7d".toList

/-- `setupDjangoWorkspace` of the companion source (lines 7-88): probe the
interpreter, check for a colliding project folder, create the project,
optionally create the app, create the virtual environment and run the
installer, write `requirements.txt`, create `.vscode` and write its
settings, then report success. -/
def setupDjangoWorkspace (env : Env) (appName : List Char) : Trace :=
  if env.pythonOk = false then
    ⟨[.procPythonVersionProbe], [.pythonNotInstalled]⟩
  else if env.projectPathExists = true then
    ⟨[.procPythonVersionProbe], [.projectFolderExists]⟩
  else if env.startProjectOk = false then
    ⟨[.procPythonVersionProbe, .procDjangoStartProject], [.projectCreateFailed]⟩
  else
    let appEvents : List Ev :=
      if appName.isEmpty then [] else [.procManageStartApp]
    let appMsgs : List Msg :=
      if appName.isEmpty then []
      else if env.startAppOk then [.appCreated] else [.appCreateFailed]
    if appName.isEmpty = false ∧ env.startAppOk = false then
      ⟨[.procPythonVersionProbe, .procDjangoStartProject] ++ appEvents,
        [.projectCreated] ++ appMsgs⟩
    else if env.venvOk = false then
      ⟨[.procPythonVersionProbe, .procDjangoStartProject] ++ appEvents
          ++ [.procCreateVenv],
        [.projectCreated] ++ appMsgs ++ [.venvSetupFailed]⟩
    else if env.pipInstallOk = false then
      ⟨[.procPythonVersionProbe, .procDjangoStartProject] ++ appEvents
          ++ [.procCreateVenv, .procPipInstall],
        [.projectCreated] ++ appMsgs ++ [.venvSetupFailed]⟩
    else if env.writeRequirementsOk = false then
      ⟨[.procPythonVersionProbe, .procDjangoStartProject] ++ appEvents
          ++ [.procCreateVenv, .procPipInstall],
        [.projectCreated] ++ appMsgs ++ [.requirementsWriteFailed]⟩
    else if env.writeVscodeSettingsOk = false then
      ⟨[.procPythonVersionProbe, .procDjangoStartProject] ++ appEvents
          ++ [.procCreateVenv, .procPipInstall,
            .fsWriteRequirementsTxt requirementsContent, .fsMkdirVscodeFolder],
        [.projectCreated] ++ appMsgs ++ [.vscodeSettingsWriteFailed]⟩
    else
      ⟨[.procPythonVersionProbe, .procDjangoStartProject] ++ appEvents
          ++ [.procCreateVenv, .procPipInstall,
            .fsWriteRequirementsTxt requirementsContent, .fsMkdirVscodeFolder,
            .fsWriteVscodeSettings vscodeSettingsJson],
        [.projectCreated] ++ appMsgs ++ [.workspaceSetUp]⟩

end Part000

/-! ## Concrete sample data and environments -/

/-- The project `urls.py` generated by the project generator, used as a
concrete sample. -/
def djangoDefaultUrls : List Char :=
  "from django.contrib import admin\nfrom django.urls import path\n\nurlpatterns = [\n    path('admin/', admin.site.urls),\n]\n".toList

/-- An environment where the interpreter probe succeeds but the project folder
already exists. -/
def ExtensionTs.collidingEnv : ExtensionTs.Env :=
  { pythonOk := true, projectPathExists := true, startProjectOk := true,
    startAppOk := true, staticChoiceYes := none, indexChoiceYes := none,
    settingsFileExists := true, settingsContent := [],
    projectUrlsContent := [] }

/-- An environment where every external step succeeds and both quick picks
are dismissed. -/
def ExtensionTs.allOkEnv : ExtensionTs.Env :=
  { pythonOk := true, projectPathExists := false, startProjectOk := true,
    startAppOk := true, staticChoiceYes := none, indexChoiceYes := none,
    settingsFileExists := true, settingsContent := [],
    projectUrlsContent := [] }

/-- An environment where every external step succeeds and the user accepts
the index-setup quick pick. -/
def ExtensionTs.indexYesEnv : ExtensionTs.Env :=
  { pythonOk := true, projectPathExists := false, startProjectOk := true,
    startAppOk := true, staticChoiceYes := none, indexChoiceYes := some true,
    settingsFileExists := true, settingsContent := [],
    projectUrlsContent := [] }

/-- An environment of the companion pipeline where every step succeeds. -/
def Part000.allOkEnv : Part000.Env :=
  { pythonOk := true, projectPathExists := false, startProjectOk := true,
    startAppOk := true, venvOk := true, pipInstallOk := true,
    writeRequirementsOk := true, writeVscodeSettingsOk := true }

/-! ## Facts about the static-configuration patcher (C1, C2, C3) -/

/-- Appending the configuration block always makes the marker present. -/
theorem staticMarker_in_append (s : List Char) :
    jsIncludes (s ++ ExtensionTs.staticBlock) ExtensionTs.staticMarker = true := by
  have hpos : 0 < countOccs ExtensionTs.staticMarker ExtensionTs.staticBlock := by
    decide
  have hle := countOccs_le_append_left ExtensionTs.staticMarker s
    ExtensionTs.staticBlock
  exact (countOccs_pos_iff (by decide)).mp (Nat.lt_of_lt_of_le hpos hle)

/-- C1: for every content of `settings.py`, applying `setupStaticConfiguration`
twice in a row produces file content byte-identical to applying it once: the
first application makes the marker present, so the second is a no-op and the
appended configuration block is never duplicated. -/
theorem C1_static_patcher_idempotent (s : List Char) :
    (ExtensionTs.setupStaticConfiguration true
        ((ExtensionTs.setupStaticConfiguration true s).content)).content
      = (ExtensionTs.setupStaticConfiguration true s).content := by
  cases hB : jsIncludes s ExtensionTs.staticMarker with
  | false => simp [ExtensionTs.setupStaticConfiguration, hB, staticMarker_in_append s]
  | true => simp [ExtensionTs.setupStaticConfiguration, hB]

/-- C2: on content not containing the marker substring, one application of
`setupStaticConfiguration` yields content containing the marker substring
exactly once, the fixed configuration block exactly once, and hence the
marker substring at all. -/
theorem C2_patcher_adds_marker_and_block_once (s : List Char)
    (h : jsIncludes s ExtensionTs.staticMarker = false) :
    countOccs ExtensionTs.staticMarker
        ((ExtensionTs.setupStaticConfiguration true s).content) = 1
    ∧ countOccs ExtensionTs.staticBlock
        ((ExtensionTs.setupStaticConfiguration true s).content) = 1
    ∧ jsIncludes ((ExtensionTs.setupStaticConfiguration true s).content)
        ExtensionTs.staticMarker = true := by
  have hcontent : (ExtensionTs.setupStaticConfiguration true s).content
      = s ++ ExtensionTs.staticBlock := by
    simp [ExtensionTs.setupStaticConfiguration, h]
  have hm0 : countOccs ExtensionTs.staticMarker s = 0 :=
    countOccs_eq_zero_of_not_includes (by decide) h
  have hmarker : countOccs ExtensionTs.staticMarker
      (s ++ ExtensionTs.staticBlock) = 1 := by
    rw [countOccs_append_noCross _ _ (by decide), hm0, Nat.zero_add]
    decide
  have hb0 : countOccs ExtensionTs.staticBlock s = 0 := by
    by_contra hne
    have hincl := (countOccs_pos_iff (by decide)).mp (Nat.pos_of_ne_zero hne)
    have hinf : ExtensionTs.staticBlock <:+: s := jsIncludes_iff_infix.mp hincl
    have hmb : ExtensionTs.staticMarker <:+: ExtensionTs.staticBlock :=
      jsIncludes_iff_infix.mp (by decide)
    have hms : jsIncludes s ExtensionTs.staticMarker = true :=
      jsIncludes_iff_infix.mpr (hmb.trans hinf)
    rw [h] at hms
    exact Bool.false_ne_true hms
  have hblock : countOccs ExtensionTs.staticBlock
      (s ++ ExtensionTs.staticBlock) = 1 := by
    rw [countOccs_append_noCross _ _ (by decide), hb0, Nat.zero_add]
    decide
  rw [hcontent]
  exact ⟨hmarker, hblock, staticMarker_in_append s⟩

/-- C2 witness: a concrete settings file without the marker. -/
theorem C2_patcher_adds_marker_and_block_once_witness :
    jsIncludes "DEBUG = True".toList ExtensionTs.staticMarker = false
    ∧ countOccs ExtensionTs.staticMarker
        ((ExtensionTs.setupStaticConfiguration true "DEBUG = True".toList).content)
      = 1 :=
  ⟨by decide, (C2_patcher_adds_marker_and_block_once _ (by decide)).1⟩

/-- C3: on content already containing the marker substring, the patcher
performs no write, leaves the content unchanged, and reports that the
configuration already exists. -/
theorem C3_patcher_noop_when_marker_present (s : List Char)
    (h : jsIncludes s ExtensionTs.staticMarker = true) :
    ExtensionTs.setupStaticConfiguration true s
      = ⟨s, false, ExtensionTs.Msg.staticConfigAlreadyExists⟩ := by
  simp [ExtensionTs.setupStaticConfiguration, h]

/-- C3 witness: a concrete settings file that already contains the marker. -/
theorem C3_patcher_noop_when_marker_present_witness :
    jsIncludes ExtensionTs.staticMarker ExtensionTs.staticMarker = true
    ∧ ExtensionTs.setupStaticConfiguration true ExtensionTs.staticMarker
      = ⟨ExtensionTs.staticMarker, false,
          ExtensionTs.Msg.staticConfigAlreadyExists⟩ :=
  ⟨by decide, C3_patcher_noop_when_marker_present _ (by decide)⟩

/-! ## Facts about the routing splice (C6, C10, C7) -/

/-- C6: when the project `urls.py` contains neither the include marker nor
the `'urlpatterns = ['` anchor, `setupIndexHtml` leaves the file content
unchanged and surfaces no error notification. -/
theorem C6_splice_silent_without_anchor (appName s : List Char)
    (hm : jsIncludes s (ExtensionTs.includeMarker appName) = false)
    (ha : jsIncludes s ExtensionTs.urlpatternsAnchor = false) :
    (ExtensionTs.setupIndexHtml appName s).projectUrlsContent = s
    ∧ ((ExtensionTs.setupIndexHtml appName s).trace.msgs.any
        ExtensionTs.Msg.isError) = false := by
  have hc : (ExtensionTs.spliceProjectUrls appName s).content = s := by
    simp [ExtensionTs.spliceProjectUrls, hm,
      replaceFirst_of_not_includes _ ha]
  constructor
  · simpa [ExtensionTs.setupIndexHtml] using hc
  · simp [ExtensionTs.setupIndexHtml, ExtensionTs.Msg.isError]

/-- C6 witness: an empty `urls.py` has neither marker nor anchor. -/
theorem C6_splice_silent_without_anchor_witness :
    jsIncludes [] (ExtensionTs.includeMarker "posts".toList) = false
    ∧ jsIncludes [] ExtensionTs.urlpatternsAnchor = false
    ∧ (ExtensionTs.setupIndexHtml "posts".toList []).projectUrlsContent = [] :=
  ⟨by decide, by decide,
    (C6_splice_silent_without_anchor "posts".toList [] (by decide) (by decide)).1⟩

/-- C10: whenever the include marker is absent, the splice performs a write
unconditionally: `wrote = true` and a write event for the project `urls.py`
appears in the trace of `setupIndexHtml` — including when the anchor is also
absent, in which case the written content is byte-identical to the original. -/
theorem C10_splice_always_writes_without_marker (appName s : List Char)
    (hm : jsIncludes s (ExtensionTs.includeMarker appName) = false) :
    (ExtensionTs.spliceProjectUrls appName s).wrote = true
    ∧ ExtensionTs.Ev.fsWriteProjectUrlsPy
        (ExtensionTs.spliceProjectUrls appName s).content
      ∈ (ExtensionTs.setupIndexHtml appName s).trace.events
    ∧ (jsIncludes s ExtensionTs.urlpatternsAnchor = false →
        (ExtensionTs.spliceProjectUrls appName s).content = s) := by
  have hw : (ExtensionTs.spliceProjectUrls appName s).wrote = true := by
    simp [ExtensionTs.spliceProjectUrls, hm]
  refine ⟨hw, ?_, ?_⟩
  · simp [ExtensionTs.setupIndexHtml, hw]
  · intro ha
    simp [ExtensionTs.spliceProjectUrls, hm,
      replaceFirst_of_not_includes _ ha]

/-- C10 witness: an empty `urls.py`; the write happens and the written
content equals the original. -/
theorem C10_splice_always_writes_without_marker_witness :
    jsIncludes [] (ExtensionTs.includeMarker "posts".toList) = false
    ∧ (ExtensionTs.spliceProjectUrls "posts".toList []).wrote = true
    ∧ (ExtensionTs.spliceProjectUrls "posts".toList []).content = [] :=
  ⟨by decide,
    (C10_splice_always_writes_without_marker "posts".toList [] (by decide)).1,
    (C10_splice_always_writes_without_marker "posts".toList [] (by decide)).2.2
      (by decide)⟩

/-- One splice on content with the anchor and without the marker leaves the
marker occurring exactly once: the original content contributes no
occurrence, the spliced-in replacement exactly one, and no occurrence can
cross the borders of the replacement. -/
theorem splice_once_count (s : List Char)
    (hm : jsIncludes s (ExtensionTs.includeMarker "posts".toList) = false)
    (ha : jsIncludes s ExtensionTs.urlpatternsAnchor = true) :
    countOccs (ExtensionTs.includeMarker "posts".toList)
      ((ExtensionTs.spliceProjectUrls "posts".toList s).content) = 1 := by
  have hcontent : (ExtensionTs.spliceProjectUrls "posts".toList s).content
      = replaceFirst s ExtensionTs.urlpatternsAnchor
          (ExtensionTs.spliceReplacement "posts".toList) := by
    unfold ExtensionTs.spliceProjectUrls
    rw [hm]
    simp
  rcases replaceFirst_decomp (ExtensionTs.spliceReplacement "posts".toList)
      ha (by decide) with ⟨pre, post, hs, hrepl⟩
  have hcount0 : countOccs (ExtensionTs.includeMarker "posts".toList) s = 0 :=
    countOccs_eq_zero_of_not_includes (by decide) hm
  have hpre0 : countOccs (ExtensionTs.includeMarker "posts".toList) pre = 0 := by
    have hle := countOccs_le_append_right
      (ExtensionTs.includeMarker "posts".toList) pre
      (ExtensionTs.urlpatternsAnchor ++ post)
    rw [← hs] at hle
    omega
  have hpost0 : countOccs (ExtensionTs.includeMarker "posts".toList) post = 0 := by
    have hle := countOccs_le_append_left
      (ExtensionTs.includeMarker "posts".toList)
      (pre ++ ExtensionTs.urlpatternsAnchor) post
    rw [List.append_assoc, ← hs] at hle
    omega
  have hnc : noCross (ExtensionTs.includeMarker "posts".toList)
      (ExtensionTs.spliceReplacement "posts".toList ++ post) = true :=
    noCross_append post (by decide) (by decide)
  have h1 := countOccs_append_noCross
    (ExtensionTs.includeMarker "posts".toList)
    (ExtensionTs.spliceReplacement "posts".toList ++ post) hnc pre
  have h2 := countOccs_append_noCrossR
    (ExtensionTs.includeMarker "posts".toList)
    (ExtensionTs.spliceReplacement "posts".toList) post (by decide)
  have hmr : countOccs (ExtensionTs.includeMarker "posts".toList)
      (ExtensionTs.spliceReplacement "posts".toList) = 1 := by decide
  rw [hcontent, hrepl, h1, h2, hpre0, hpost0, hmr]

/-- C7: running the routing splice of `setupIndexHtml` twice in a row on a
project `urls.py` that has the anchor and no include line leaves exactly one
occurrence of `include('posts.urls')` for app name `posts`: the first run
inserts it once, the second run sees the marker and changes nothing. -/
theorem C7_double_splice_single_include (s : List Char)
    (hm : jsIncludes s (ExtensionTs.includeMarker "posts".toList) = false)
    (ha : jsIncludes s ExtensionTs.urlpatternsAnchor = true) :
    countOccs (ExtensionTs.includeMarker "posts".toList)
      ((ExtensionTs.setupIndexHtml "posts".toList
          ((ExtensionTs.setupIndexHtml "posts".toList
            s).projectUrlsContent)).projectUrlsContent) = 1 := by
  have h1 : (ExtensionTs.setupIndexHtml "posts".toList s).projectUrlsContent
      = (ExtensionTs.spliceProjectUrls "posts".toList s).content := rfl
  have hcount1 := splice_once_count s hm ha
  have hincl : jsIncludes
      ((ExtensionTs.spliceProjectUrls "posts".toList s).content)
      (ExtensionTs.includeMarker "posts".toList) = true := by
    refine (countOccs_pos_iff (by decide)).mp ?_
    rw [hcount1]
    exact Nat.one_pos
  have h2 : ∀ u : List Char,
      jsIncludes u (ExtensionTs.includeMarker "posts".toList) = true →
      (ExtensionTs.setupIndexHtml "posts".toList u).projectUrlsContent = u := by
    intro u hu
    show (ExtensionTs.spliceProjectUrls "posts".toList u).content = u
    unfold ExtensionTs.spliceProjectUrls
    rw [hu]
    simp
  rw [h1, h2 _ hincl, hcount1]

/-- C7 witness: the generated project `urls.py`. -/
theorem C7_double_splice_single_include_witness :
    jsIncludes djangoDefaultUrls (ExtensionTs.includeMarker "posts".toList) = false
    ∧ jsIncludes djangoDefaultUrls ExtensionTs.urlpatternsAnchor = true
    ∧ countOccs (ExtensionTs.includeMarker "posts".toList)
        ((ExtensionTs.setupIndexHtml "posts".toList
            ((ExtensionTs.setupIndexHtml "posts".toList
              djangoDefaultUrls).projectUrlsContent)).projectUrlsContent) = 1 :=
  ⟨by decide, by decide,
    C7_double_splice_single_include djangoDefaultUrls (by decide) (by decide)⟩

/-! ## Pipeline claims (C4, C5, C8, C9) -/

/-- C4 counterexample: with a colliding project folder the pipeline still
invokes an external process — the interpreter version probe — before it
aborts, so it does not abort before invoking any external process. -/
theorem C4_counterexample_probe_runs_before_abort :
    ExtensionTs.collidingEnv.projectPathExists = true
    ∧ ((ExtensionTs.setupDjangoWorkspace ExtensionTs.collidingEnv
        "posts".toList).events.any ExtensionTs.Ev.isProc) = true
    ∧ (ExtensionTs.setupDjangoWorkspace ExtensionTs.collidingEnv
        "posts".toList).msgs = [ExtensionTs.Msg.projectFolderExists] := by
  decide

/-- C4 (amended): for a ProjectName colliding with an existing directory
entry, `setupDjangoWorkspace` aborts before invoking either generator
process; the only external process already invoked is the interpreter
version probe, which runs before the collision check. -/
theorem C4_collision_aborts_after_probe_only (env : ExtensionTs.Env)
    (appName : List Char) (hpy : env.pythonOk = true)
    (hex : env.projectPathExists = true) :
    ExtensionTs.setupDjangoWorkspace env appName
      = ⟨[ExtensionTs.Ev.procPythonVersionProbe],
          [ExtensionTs.Msg.projectFolderExists]⟩ := by
  simp [ExtensionTs.setupDjangoWorkspace, hpy, hex]

/-- C4 witness: a concrete colliding environment. -/
theorem C4_collision_aborts_after_probe_only_witness :
    ExtensionTs.collidingEnv.pythonOk = true
    ∧ ExtensionTs.collidingEnv.projectPathExists = true
    ∧ ExtensionTs.setupDjangoWorkspace ExtensionTs.collidingEnv "posts".toList
      = ⟨[ExtensionTs.Ev.procPythonVersionProbe],
          [ExtensionTs.Msg.projectFolderExists]⟩ :=
  ⟨rfl, rfl, C4_collision_aborts_after_probe_only _ _ rfl rfl⟩

/-- C5 counterexample: dismissing the AppName prompt does not abort — the
command handler proceeds and the pipeline performs external-process side
effects, with no cancellation message. -/
theorem C5_counterexample_app_dismissal_proceeds :
    ExtensionTs.activateHandler ExtensionTs.allOkEnv true
        (some "blog".toList) none
      = ⟨[ExtensionTs.Ev.procPythonVersionProbe,
          ExtensionTs.Ev.procDjangoStartProject],
        [ExtensionTs.Msg.projectCreated]⟩
    ∧ ExtensionTs.Ev.isProc ExtensionTs.Ev.procDjangoStartProject = true := by
  decide

/-- C5 (amended): dismissing the ProjectName prompt aborts the whole
operation with a user-visible message and no side effects; dismissing the
AppName prompt does not abort — it is treated exactly like entering the
empty app name and the pipeline proceeds. -/
theorem C5_dismissal_behaviour (env : ExtensionTs.Env)
    (appNameInput : Option (List Char)) :
    ExtensionTs.activateHandler env true none appNameInput
        = ⟨[], [ExtensionTs.Msg.noProjectNameEntered]⟩
    ∧ ∀ pn : Option (List Char),
        ExtensionTs.activateHandler env true pn none
          = ExtensionTs.activateHandler env true pn (some []) := by
  refine ⟨rfl, ?_⟩
  intro pn
  cases pn <;> rfl

/-- The static-files step produces either no event or a single write of
`settings.py`. -/
theorem staticStep_events (env : ExtensionTs.Env) :
    (ExtensionTs.staticStep env).events = []
    ∨ ∃ c, (ExtensionTs.staticStep env).events
        = [ExtensionTs.Ev.fsWriteSettingsPy c] := by
  unfold ExtensionTs.staticStep
  cases env.staticChoiceYes with
  | none => exact Or.inl rfl
  | some b =>
    cases b with
    | false => exact Or.inl rfl
    | true =>
      by_cases hw : (ExtensionTs.setupStaticConfiguration env.settingsFileExists
          env.settingsContent).wrote = true
      · exact Or.inr ⟨(ExtensionTs.setupStaticConfiguration
            env.settingsFileExists env.settingsContent).content, by simp [hw]⟩
      · exact Or.inl (by simp [hw])

/-- No event of the static-files step is an external process invocation. -/
theorem staticStep_no_proc {env : ExtensionTs.Env} {e : ExtensionTs.Ev}
    (he : e ∈ (ExtensionTs.staticStep env).events) : e.isProc = false := by
  rcases staticStep_events env with h | ⟨c, h⟩
  · rw [h] at he
    simp at he
  · rw [h] at he
    rw [List.mem_singleton] at he
    subst he
    rfl

/-- The index step produces either no event, or the four unconditional file
events possibly followed by a write of the project `urls.py`. -/
theorem indexStep_events (env : ExtensionTs.Env) (appName : List Char) :
    (ExtensionTs.indexStep env appName).events = []
    ∨ ∃ tail, (ExtensionTs.indexStep env appName).events
        = [ExtensionTs.Ev.fsMkdirTemplatesDir, ExtensionTs.Ev.fsWriteIndexHtml,
            ExtensionTs.Ev.fsWriteViewsPy, ExtensionTs.Ev.fsWriteAppUrlsPy]
          ++ tail
        ∧ ∀ e ∈ tail, ∃ c, e = ExtensionTs.Ev.fsWriteProjectUrlsPy c := by
  unfold ExtensionTs.indexStep
  cases env.indexChoiceYes with
  | none => exact Or.inl rfl
  | some b =>
    cases b with
    | false => exact Or.inl rfl
    | true =>
      right
      by_cases hw : (ExtensionTs.spliceProjectUrls appName
          env.projectUrlsContent).wrote = true
      · refine ⟨[ExtensionTs.Ev.fsWriteProjectUrlsPy
            (ExtensionTs.spliceProjectUrls appName
              env.projectUrlsContent).content], ?_, ?_⟩
        · simp [ExtensionTs.setupIndexHtml, hw]
        · intro e hee
          rw [List.mem_singleton] at hee
          exact ⟨_, hee⟩
      · refine ⟨[], ?_, ?_⟩
        · simp [ExtensionTs.setupIndexHtml, hw]
        · intro e hee
          simp at hee

/-- No event of the index step is an external process invocation. -/
theorem indexStep_no_proc {env : ExtensionTs.Env} {appName : List Char}
    {e : ExtensionTs.Ev}
    (he : e ∈ (ExtensionTs.indexStep env appName).events) :
    e.isProc = false := by
  rcases indexStep_events env appName with h | ⟨tail, h, htail⟩
  · rw [h] at he
    simp at he
  · rw [h] at he
    rw [List.mem_append] at he
    rcases he with he | he
    · simp at he
      rcases he with rfl | rfl | rfl | rfl <;> rfl
    · rcases htail e he with ⟨c, rfl⟩
      rfl

/-- C8 counterexample: for the empty AppName, when the user accepts the
index-setup prompt the pipeline still writes the template `index.html`, the
`views.py` and the app `urls.py`, and splices the project `urls.py`. -/
theorem C8_counterexample_empty_appname_writes_files :
    ExtensionTs.Ev.fsWriteIndexHtml
        ∈ (ExtensionTs.setupDjangoWorkspace ExtensionTs.indexYesEnv []).events
    ∧ ExtensionTs.Ev.fsWriteViewsPy
        ∈ (ExtensionTs.setupDjangoWorkspace ExtensionTs.indexYesEnv []).events
    ∧ ExtensionTs.Ev.fsWriteProjectUrlsPy
        (ExtensionTs.spliceProjectUrls [] []).content
        ∈ (ExtensionTs.setupDjangoWorkspace ExtensionTs.indexYesEnv []).events := by
  decide

/-- C8 (amended): for an empty AppName the pipeline does skip the
app-generator invocation — no `manage.py startapp` process ever runs — but
app-related file materialization is not prevented: when the pipeline reaches
the index-setup prompt and the user accepts it, the template, `views.py`,
app `urls.py` writes and the routing splice still run with the empty app
name. -/
theorem C8_empty_appname_behaviour (env : ExtensionTs.Env) :
    ExtensionTs.Ev.procManageStartApp
        ∉ (ExtensionTs.setupDjangoWorkspace env []).events
    ∧ (env.pythonOk = true → env.projectPathExists = false →
        env.startProjectOk = true → env.indexChoiceYes = some true →
        ExtensionTs.Ev.fsWriteIndexHtml
          ∈ (ExtensionTs.setupDjangoWorkspace env []).events) := by
  constructor
  · intro hmem
    unfold ExtensionTs.setupDjangoWorkspace at hmem
    split at hmem
    · simp at hmem
    · split at hmem
      · simp at hmem
      · split at hmem
        · simp at hmem
        · rw [if_pos (show ([] : List Char).isEmpty = true from rfl)] at hmem
          simp only [ExtensionTs.Trace.seq, List.mem_append] at hmem
          rcases hmem with h | h | h
          · simp at h
          · have := staticStep_no_proc h
            simp [ExtensionTs.Ev.isProc] at this
          · have := indexStep_no_proc h
            simp [ExtensionTs.Ev.isProc] at this
  · intro h1 h2 h3 h4
    simp [ExtensionTs.setupDjangoWorkspace, h1, h2, h3, ExtensionTs.Trace.seq,
      ExtensionTs.indexStep, h4, ExtensionTs.setupIndexHtml]

/-- C8 witness: the concrete environment accepting the index-setup prompt. -/
theorem C8_empty_appname_behaviour_witness :
    ExtensionTs.Ev.procManageStartApp
        ∉ (ExtensionTs.setupDjangoWorkspace ExtensionTs.indexYesEnv []).events
    ∧ ExtensionTs.Ev.fsWriteIndexHtml
        ∈ (ExtensionTs.setupDjangoWorkspace ExtensionTs.indexYesEnv []).events :=
  ⟨(C8_empty_appname_behaviour ExtensionTs.indexYesEnv).1,
    (C8_empty_appname_behaviour ExtensionTs.indexYesEnv).2 rfl rfl rfl rfl⟩

/-- C9: after a successful end-to-end run of the companion pipeline, the
project directory contains a `requirements.txt` write whose content is
exactly the two fixed dependency lines joined by a newline. -/
theorem C9_requirements_two_fixed_lines (env : Part000.Env)
    (appName : List Char)
    (h1 : env.pythonOk = true) (h2 : env.projectPathExists = false)
    (h3 : env.startProjectOk = true) (h4 : env.startAppOk = true)
    (h5 : env.venvOk = true) (h6 : env.pipInstallOk = true)
    (h7 : env.writeRequirementsOk = true)
    (h8 : env.writeVscodeSettingsOk = true) :
    Part000.Ev.fsWriteRequirementsTxt Part000.requirementsContent
        ∈ (Part000.setupDjangoWorkspace env appName).events
    ∧ Part000.Msg.workspaceSetUp
        ∈ (Part000.setupDjangoWorkspace env appName).msgs
    ∧ Part000.requirementsContent
        = "Django==3.2.6\ndjangorestframework==3.12.4".toList := by
  refine ⟨?_, ?_, by decide⟩ <;>
    simp [Part000.setupDjangoWorkspace, h1, h2, h3, h4, h5, h6, h7, h8]

/-- C9 witness: the all-success environment with app name `posts`. -/
theorem C9_requirements_two_fixed_lines_witness :
    Part000.Ev.fsWriteRequirementsTxt Part000.requirementsContent
        ∈ (Part000.setupDjangoWorkspace Part000.allOkEnv "posts".toList).events
    ∧ Part000.Msg.workspaceSetUp
        ∈ (Part000.setupDjangoWorkspace Part000.allOkEnv "posts".toList).msgs :=
  ⟨(C9_requirements_two_fixed_lines Part000.allOkEnv "posts".toList
      rfl rfl rfl rfl rfl rfl rfl rfl).1,
    (C9_requirements_two_fixed_lines Part000.allOkEnv "posts".toList
      rfl rfl rfl rfl rfl rfl rfl rfl).2.1⟩
